import Mathlib

/-!
A shallow embedding of the go-rollback CLI (package main) and proofs about
its behaviour.  The program shells out to git; here the outcomes of the
external git commands are an explicit `GitWorld` parameter, the filesystem
seen by `filepath.Walk` is an explicit `FSNode` tree, and the operator's
stdin is a list of lines.  Each Go function is translated into a Lean
function of the same name; mutating git invocations (checkout, commit) are
recorded in a trace.
-/

namespace GoRollback

/-- Model of Go strings.TrimSpace: drop leading and trailing whitespace
(working on the character list; the names trimmed here are ASCII). -/
def trimSpace (s : String) : String :=
  String.mk
    (((s.data.dropWhile Char.isWhitespace).reverse.dropWhile
        Char.isWhitespace).reverse)

/-- Model of Go strings.ToLower on ASCII strings. -/
def toLowerStr (s : String) : String := String.mk (s.data.map Char.toLower)

/-- Model of Go strings.HasSuffix. -/
def hasSuffix (s suffix : String) : Bool := suffix.data.isSuffixOf s.data

/-- Accumulator loop behind `splitOnChar`. -/
def splitOnCharAux (c : Char) : List Char → List Char → List (List Char)
  | [], acc => [acc.reverse]
  | x :: xs, acc =>
    if x = c then acc.reverse :: splitOnCharAux c xs []
    else splitOnCharAux c xs (x :: acc)

/-- Model of Go strings.Split with a one-character separator (the program
only splits on newline and on comma): the pieces between occurrences of
the separator, in order; an input with no separator gives the one-element
list holding the whole input, so the result is never empty. -/
def splitOnChar (c : Char) (s : String) : List String :=
  (splitOnCharAux c s.data []).map String.mk

/-- The split result always has at least one element, like Go
strings.Split with a non-empty separator. -/
theorem splitOnCharAux_ne_nil (c : Char) (l acc : List Char) :
    splitOnCharAux c l acc ≠ [] := by
  induction l generalizing acc with
  | nil => simp [splitOnCharAux]
  | cons x xs ih =>
    simp only [splitOnCharAux]
    split
    · simp
    · exact ih _

/-- One is a lower bound on the length of any split result. -/
theorem splitOnChar_length_pos (c : Char) (s : String) :
    1 ≤ (splitOnChar c s).length := by
  have h := splitOnCharAux_ne_nil c s.data []
  simp only [splitOnChar, List.length_map]
  cases hx : splitOnCharAux c s.data [] with
  | nil => exact absurd hx h
  | cons a l => simp

/-- Model of Go strconv.Atoi: optional sign, then one or more decimal
digits; anything else is an error (`none`).  Go additionally errors on
64-bit overflow, which is irrelevant to the small menu indices here, so the
result is an unbounded `Int`. -/
def atoi (s : String) : Option Int :=
  let cs := s.toList
  let signed : Bool × List Char :=
    match cs with
    | '-' :: rest => (true, rest)
    | '+' :: rest => (false, rest)
    | _ => (false, cs)
  let ds := signed.2
  if ds.isEmpty ∨ ¬ ds.all Char.isDigit then none
  else
    let v : Nat := ds.foldl (fun a c => a * 10 + (c.toNat - '0'.toNat)) 0
    some (if signed.1 then -(v : Int) else (v : Int))

/-- Model of Go strings.EqualFold restricted to ASCII (all file names this
program compares are ASCII): case-insensitive equality via lowercasing. -/
def eqFold (a b : String) : Bool := toLowerStr a == toLowerStr b

/-- A mutating git invocation issued by the program.  `commit` carries the
message passed with -m and the pathspec list given after it. -/
inductive GitCmd
  | checkout (commit : String) (path : String)
  | commit (message : String) (paths : List String)
deriving DecidableEq, Repr

/-- Outcomes of the external git commands for one run: the captured output
of rev-parse and branch --show-current (`none` = the command exited
non-zero), the output of git log per file path (`Except.error` = non-zero
exit, carrying the diagnostic text), and success of checkout / commit. -/
structure GitWorld where
  revParseOut : Option String
  branchOut : Option String
  logOut : String → Except String String
  checkoutOk : String → String → Bool
  commitOk : String → List String → Bool

/-- The three-value return of Go isGitRepo: (isRepo, branch, err). -/
structure IsGitRepoResult where
  isRepo : Bool
  branch : String
  err : Option String
deriving DecidableEq, Repr

/-- The fixed protected set from isGitRepo. -/
def protectedBranches : List String := ["master", "develop", "main"]

/-- Embedding of Go isGitRepo: checks rev-parse output is "true" after
trimming, then reads the current branch, and errors when it is protected. -/
def isGitRepo (g : GitWorld) : IsGitRepoResult :=
  match g.revParseOut with
  | none => ⟨false, "", some "not a git repository"⟩
  | some out =>
    if trimSpace out = "true" then
      match g.branchOut with
      | none => ⟨false, "", some "failed to get the current branch"⟩
      | some branchOut =>
        let currentBranch := trimSpace branchOut
        if protectedBranches.contains currentBranch then
          ⟨true, currentBranch,
            some ("current branch \x27" ++ currentBranch ++ "\x27 is a protected branch")⟩
        else
          ⟨true, currentBranch, none⟩
    else ⟨false, "", some "not a git repository"⟩

/-- Numbered history line as printed by getFileGitHistory (part_001 pads a
space when the 1-based index is below 10). -/
def numberedLine (n : Nat) (line : String) : String :=
  if n < 10 then " " ++ toString n ++ ". " ++ line
  else toString n ++ ". " ++ line

/-- Embedding of Go getFileGitHistory: on a zero-exit log command the
captured output is trimmed and split on newlines (never an error, whatever
the output); on non-zero exit the error is wrapped.  Returns the lines it
prints together with the result. -/
def getFileGitHistory (g : GitWorld) (filePath : String) :
    List String × Except String (List String) :=
  match g.logOut filePath with
  | .error e => ([], .error ("failed to retrieve git history: " ++ e))
  | .ok output =>
    let history := splitOnChar '\n' (trimSpace output)
    let printed :=
      ("Git history for \x27" ++ filePath ++ "\x27:") ::
        history.enum.map (fun p => numberedLine (p.1 + 1) p.2)
    (printed, .ok history)

/-- The commit message generated by rollbackToCommit. -/
def mkCommitMessage (filePath commit : String) : String :=
  "Successfully rolled back \x27" ++ filePath ++ "\x27 to commit " ++ commit

/-- Embedding of Go rollbackToCommit (part_001): run
git checkout commit -- filePath; only if it succeeds, run
git commit -m message filePath (the pathspec restricts the commit to
filePath).  Returns the trace of issued commands and the result; the
underlying tool diagnostics appended by %v are elided. -/
def rollbackToCommit (g : GitWorld) (filePath commit : String) :
    List GitCmd × Except String Unit :=
  if g.checkoutOk commit filePath then
    let msg := mkCommitMessage filePath commit
    if g.commitOk msg [filePath] then
      ([.checkout commit filePath, .commit msg [filePath]], .ok ())
    else
      ([.checkout commit filePath, .commit msg [filePath]],
        .error "failed to create commit")
  else
    ([.checkout commit filePath], .error "failed to checkout commit")

/-- How a run of the program proceeds after the modelled steps: still
running normally, terminated via os.Exit with the given code, or looping
forever (the prompt loop with stdin exhausted and an invalid default). -/
inductive Control
  | ok
  | exited (code : Nat)
  | divergent
deriving DecidableEq, Repr

/-- One modelled program fragment run: the lines it printed, the mutating
git commands it issued, the stdin lines it has not consumed, and how it
ended. -/
structure Proc where
  printed : List String
  trace : List GitCmd
  rest : List String
  control : Control
deriving DecidableEq, Repr

/-- The default menu index from the prompt loop: 2, clamped down to the
history length when the history is shorter. -/
def defaultIndex (history : List String) : Nat :=
  if history.length < 2 then history.length else 2

/-- Empty input is replaced by strconv.Itoa of the default index before
parsing (Go lines 119-121 of the handler). -/
def resolveInput (history : List String) (raw : String) : String :=
  if raw = "" then toString (defaultIndex history) else raw

/-- Outcome of validating one prompt answer. -/
inductive Selection
  | retry
  | noop
  | rollbackTo (index : Nat)
deriving DecidableEq, Repr

/-- One iteration of the prompt loop body up to the decision: parse the
(default-resolved) input; out-of-range or non-numeric input retries; index
1 is the no-rollback branch; any other valid index rolls back. -/
def selectStep (history : List String) (raw : String) : Selection :=
  match atoi (resolveInput history raw) with
  | none => .retry
  | some index =>
    if index < 1 ∨ index > (history.length : Int) then .retry
    else if index = 1 then .noop
    else .rollbackTo index.toNat

/-- The prompt printed each iteration. -/
def promptLine (history : List String) : String :=
  "Enter the number of the commit to rollback to [" ++
    toString (defaultIndex history) ++ "]: "

/-- The message of the index-1 no-rollback branch. -/
def noopLine (filePath : String) : String :=
  "No rollback has been done for \x27" ++ filePath ++
    "\x27 because it is already at commit number 1."

/-- The success message after a rollback. -/
def successLine (filePath commit : String) : String :=
  "Successfully rolled back \x27" ++ filePath ++ "\x27 to commit " ++ commit ++ "."

/-- The retry message for invalid input. -/
def retryLine : String := "Invalid number. Please try again."

/-- The commit id extracted from the selected 1-based entry: the text of
history[index-1] before its first comma. -/
def commitOf (history : List String) (index : Nat) : String :=
  (splitOnChar ',' (history.getD (index - 1) "")).headD ""

/-- The tail of the loop iteration once the selection is not a retry. -/
def selectDone (g : GitWorld) (filePath : String) (history : List String)
    (sel : Selection) (rest : List String) : Proc :=
  match sel with
  | .retry => ⟨[], [], rest, .ok⟩
  | .noop => ⟨[promptLine history, noopLine filePath], [], rest, .ok⟩
  | .rollbackTo i =>
    let commit := commitOf history i
    let r := rollbackToCommit g filePath commit
    match r.2 with
    | .error e =>
      ⟨[promptLine history, "Error rolling back: " ++ e], r.1, rest, .exited 1⟩
    | .ok _ =>
      ⟨[promptLine history, successLine filePath commit], r.1, rest, .ok⟩

/-- Embedding of the interactive for-loop of handleSingleRolloutFile,
consuming stdin lines one per iteration.  When stdin is exhausted the Go
Scanner yields "" forever; if that resolved default is still invalid the
loop never terminates, recorded as `Control.divergent` (with the printed
output truncated to the first of the identical iterations). -/
def selectLoop (g : GitWorld) (filePath : String) (history : List String) :
    List String → Proc
  | [] =>
    match selectStep history "" with
    | .retry => ⟨[promptLine history, retryLine], [], [], .divergent⟩
    | sel => selectDone g filePath history sel []
  | raw :: rest =>
    match selectStep history raw with
    | .retry =>
      let p := selectLoop g filePath history rest
      ⟨promptLine history :: retryLine :: p.printed, p.trace, p.rest, p.control⟩
    | sel => selectDone g filePath history sel rest

/-- Embedding of Go handleSingleRolloutFile: fetch and print the history
(exit 1 on failure), then run the prompt loop. -/
def handleSingleRolloutFile (g : GitWorld) (filePath : String)
    (inputs : List String) : Proc :=
  let h := getFileGitHistory g filePath
  match h.2 with
  | .error e => ⟨h.1 ++ ["Error: " ++ e], [], inputs, .exited 1⟩
  | .ok history =>
    let p := selectLoop g filePath history inputs
    ⟨h.1 ++ p.printed, p.trace, p.rest, p.control⟩

mutual
/-- A filesystem tree as seen by filepath.Walk: regular files and
directories with children listed in the walk's visiting order. -/
inductive FSNode
  | file (name : String)
  | dir (name : String) (children : FSForest)
/-- The ordered children of a directory. -/
inductive FSForest
  | nil
  | cons (head : FSNode) (tail : FSForest)
end

/-- Name of a node. -/
def FSNode.name : FSNode → String
  | .file n => n
  | .dir n _ => n

/-- One visited entry of the walk: its full path, base name and kind. -/
structure WalkEntry where
  path : String
  name : String
  isDir : Bool
deriving DecidableEq, Repr

mutual
/-- Embedding of filepath.Walk from the given root path: the root is
visited first, then each child under path/childName, depth first, in
listed order.  Unreadable entries (the WalkFailed path) are not modelled. -/
def walkEntries : FSNode → String → List WalkEntry
  | .file n, path => [⟨path, n, false⟩]
  | .dir n cs, path => ⟨path, n, true⟩ :: walkForest cs path
/-- The walk over the children of a directory at the given path. -/
def walkForest : FSForest → String → List WalkEntry
  | .nil, _ => []
  | .cons c rest, path =>
    walkEntries c (path ++ "/" ++ c.name) ++ walkForest rest path
end

/-- Embedding of Go countRolloutFiles: collect, in walk order, the paths of
the non-directory entries whose name is EqualFold to "rollout.yaml". -/
def countRolloutFiles (dirPath : String) (root : FSNode) : List String :=
  ((walkEntries root dirPath).filter
      (fun e => !e.isDir && eqFold e.name "rollout.yaml")).map (·.path)

/-- The whole world one invocation runs against: whether os.Stat finds the
input path, the git command outcomes, and the filesystem tree rooted at the
input path. -/
structure World where
  pathExists : Bool
  git : GitWorld
  fs : FSNode

/-- Sequential processing (part_001 lines 165-167) of the discovered files
through handleSingleRolloutFile, threading the unread stdin lines; an exit
or divergence in one file stops the run. -/
def processFiles (g : GitWorld) : List String → List String → Proc
  | [], ins => ⟨[], [], ins, .ok⟩
  | f :: fs, ins =>
    let p := handleSingleRolloutFile g f ins
    match p.control with
    | .ok =>
      let q := processFiles g fs p.rest
      ⟨p.printed ++ q.printed, p.trace ++ q.trace, q.rest, q.control⟩
    | c => ⟨p.printed, p.trace, p.rest, c⟩

/-- The count report of the directory flow. -/
def foundLine (count : Nat) : String :=
  "Found " ++ toString count ++ " rollout.yaml files:"

/-- The confirmation prompt of the directory flow. -/
def confirmLine (count : Nat) : String :=
  "Would you like to continue with rolling back all " ++ toString count ++
    " of these files? (yes/no): "

/-- Embedding of Go handleDirectoryRolloutFiles: list the matching files,
ask for a yes/no confirmation (lower-cased; anything but "yes" aborts with
exit status 0), then process every file through the single-file flow. -/
def handleDirectoryRolloutFiles (w : World) (dirPath : String)
    (inputs : List String) : Proc :=
  let files := countRolloutFiles dirPath w.fs
  let header := foundLine files.length :: files
  let response := toLowerStr (inputs.headD "")
  let rest := inputs.tail
  if response = "yes" then
    let p := processFiles w.git files rest
    ⟨header ++ [confirmLine files.length,
        "Proceeding with rollback for all rollout.yaml files..."] ++ p.printed,
      p.trace, p.rest, p.control⟩
  else
    ⟨header ++ [confirmLine files.length, "Operation aborted by the user."],
      [], rest, .exited 0⟩

/-- Embedding of rootCmd.Run (part_001): check the path exists, check the
repository guard, then dispatch on whether the input path string ends with
the exact lowercase suffix "rollout.yaml" — the single-file flow if it
does, the directory flow otherwise. -/
def runRoot (w : World) (inputPath : String) (inputs : List String) : Proc :=
  if w.pathExists then
    match (isGitRepo w.git).err with
    | some e => ⟨["Error: " ++ e], [], inputs, .exited 1⟩
    | none =>
      if hasSuffix inputPath "rollout.yaml" then
        handleSingleRolloutFile w.git inputPath inputs
      else
        handleDirectoryRolloutFiles w inputPath inputs
  else
    ⟨["The path \x27" ++ inputPath ++ "\x27 does not exist."], [], inputs,
      .exited 1⟩

/-- The process exit status a finished fragment leads to: a normal return
from Run exits 0; os.Exit carries its code; a divergent loop never exits. -/
def exitCode (p : Proc) : Option Nat :=
  match p.control with
  | .ok => some 0
  | .exited n => some n
  | .divergent => none

/-- Association of string concatenation, needed to read substrings out of
the generated commit message. -/
theorem string_append_assoc (a b c : String) : a ++ b ++ c = a ++ (b ++ c) := by
  cases a with | mk d1 =>
  cases b with | mk d2 =>
  cases c with | mk d3 =>
  show String.mk ((d1 ++ d2) ++ d3) = String.mk (d1 ++ (d2 ++ d3))
  rw [List.append_assoc]

/-- The empty string is right-neutral for concatenation. -/
theorem string_append_empty (a : String) : a ++ "" = a := by
  cases a with | mk d =>
  show String.mk (d ++ []) = String.mk d
  rw [List.append_nil]

/-- A git world whose checkout invocation fails. -/
def wCheckoutFails : GitWorld :=
  ⟨some "true", some "feature", fun _ => .ok "", fun _ _ => false, fun _ _ => true⟩

/-- A git world whose checkout succeeds but whose commit invocation fails. -/
def wCommitFails : GitWorld :=
  ⟨some "true", some "feature", fun _ => .ok "", fun _ _ => true, fun _ _ => false⟩

/-- C4: the rollback executor runs checkout then commit strictly in
sequence.  When checkout fails the trace holds only the checkout command
(commit is never attempted) and the result is the checkout failure; when
checkout succeeds and commit fails the trace holds exactly the two
commands in order, the result is the commit failure, and no further
command (no cleanup) is issued. -/
theorem rollback_sequencing (g : GitWorld) (filePath commit : String) :
    (g.checkoutOk commit filePath = false →
      rollbackToCommit g filePath commit =
        ([.checkout commit filePath], .error "failed to checkout commit")) ∧
    (g.checkoutOk commit filePath = true →
      g.commitOk (mkCommitMessage filePath commit) [filePath] = false →
      rollbackToCommit g filePath commit =
        ([.checkout commit filePath,
          .commit (mkCommitMessage filePath commit) [filePath]],
          .error "failed to create commit")) := by
  refine ⟨fun h => ?_, fun h1 h2 => ?_⟩ <;> simp [rollbackToCommit, *]

/-- C4 witness: both failure shapes at concrete worlds. -/
theorem rollback_sequencing_witness :
    (rollbackToCommit wCheckoutFails "rollout.yaml" "abc000" =
      ([.checkout "abc000" "rollout.yaml"], .error "failed to checkout commit")) ∧
    (rollbackToCommit wCommitFails "rollout.yaml" "abc000" =
      ([.checkout "abc000" "rollout.yaml",
        .commit (mkCommitMessage "rollout.yaml" "abc000") ["rollout.yaml"]],
        .error "failed to create commit")) :=
  ⟨(rollback_sequencing wCheckoutFails "rollout.yaml" "abc000").1 rfl,
    (rollback_sequencing wCommitFails "rollout.yaml" "abc000").2 rfl rfl⟩

/-- C5: whenever the checkout succeeds, the commit command issued by the
executor is restricted to exactly the rolled-back file (its pathspec list
is the single given path, so no other modified file is included), and its
generated message mentions both the file path and the target revision. -/
theorem rollback_commit_scope (g : GitWorld) (filePath commit : String)
    (h : g.checkoutOk commit filePath = true) :
    (rollbackToCommit g filePath commit).1 =
      [.checkout commit filePath,
        .commit (mkCommitMessage filePath commit) [filePath]] ∧
    (∃ a b, mkCommitMessage filePath commit = a ++ filePath ++ b) ∧
    (∃ a b, mkCommitMessage filePath commit = a ++ commit ++ b) := by
  refine ⟨?_, ?_, ?_⟩
  · cases hc : g.commitOk (mkCommitMessage filePath commit) [filePath] <;>
      simp [rollbackToCommit, h, hc]
  · refine ⟨"Successfully rolled back \x27", "\x27 to commit " ++ commit, ?_⟩
    simp only [mkCommitMessage]
    rw [string_append_assoc]
  · refine ⟨"Successfully rolled back \x27" ++ filePath ++ "\x27 to commit ", "", ?_⟩
    simp only [mkCommitMessage]
    rw [string_append_empty]

/-- C5 witness: the commit issued for the spec scenario file and revision
is restricted to that one path and its message names both. -/
theorem rollback_commit_scope_witness :
    (rollbackToCommit wCommitFails "rollout.yaml" "abc000").1 =
      [.checkout "abc000" "rollout.yaml",
        .commit (mkCommitMessage "rollout.yaml" "abc000") ["rollout.yaml"]] ∧
    (∃ a b, mkCommitMessage "rollout.yaml" "abc000" = a ++ "rollout.yaml" ++ b) ∧
    (∃ a b, mkCommitMessage "rollout.yaml" "abc000" = a ++ "abc000" ++ b) :=
  rollback_commit_scope wCommitFails "rollout.yaml" "abc000" rfl

/-- C1: when the repository check answers "true" and the current branch
trims to one of the protected set, the run prints the protected-branch
error carrying the branch name and exits with status 1, with an empty
mutating-command trace: no checkout and no commit was invoked. -/
theorem protected_branch_guard (w : World) (p r b : String) (ins : List String)
    (hex : w.pathExists = true)
    (hrev : w.git.revParseOut = some r) (htr : trimSpace r = "true")
    (hbr : w.git.branchOut = some b)
    (hprot : protectedBranches.contains (trimSpace b) = true) :
    runRoot w p ins =
      ⟨["Error: " ++
          ("current branch \x27" ++ trimSpace b ++ "\x27 is a protected branch")],
        [], ins, .exited 1⟩ := by
  have hmem : trimSpace b ∈ protectedBranches := by simpa using hprot
  simp [runRoot, hex, isGitRepo, hrev, htr, hbr, hmem]

/-- A world on the protected branch "main". -/
def wProtectedMain : World :=
  ⟨true, ⟨some "true\n", some "main\n", fun _ => .ok "", fun _ _ => true,
    fun _ _ => true⟩, .file "rollout.yaml"⟩

/-- C1 witness: on branch "main" the run exits 1 with the protected-branch
error and issues no git checkout or commit. -/
theorem protected_branch_guard_witness :
    runRoot wProtectedMain "rollout.yaml" [] =
      ⟨["Error: current branch \x27main\x27 is a protected branch"],
        [], [], .exited 1⟩ := by
  have h := protected_branch_guard wProtectedMain "rollout.yaml" "true\n" "main\n"
    [] rfl rfl (by decide) rfl (by decide)
  exact h.trans (by decide)

/-- A git world whose log command exits 0 with empty output. -/
def wEmptyLog : GitWorld :=
  ⟨some "true", some "feature", fun _ => .ok "", fun _ _ => true, fun _ _ => true⟩

/-- C7 counterexample: an empty log output with zero exit status does NOT
yield a failure — getFileGitHistory returns the one-element history list
holding the empty string, contradicting the claim that empty output must
yield HistoryUnavailable. -/
theorem history_empty_output_counterexample :
    (getFileGitHistory wEmptyLog "rollout.yaml").2 = .ok [""] := rfl

/-- C7 amended: the history reader fails exactly when the external log
command exits non-zero (the error wraps the underlying diagnostic); a
zero-exit command with empty output instead produces the history list
containing the single empty line. -/
theorem history_fails_iff_log_fails (g : GitWorld) (fp : String) :
    ((∃ e, g.logOut fp = .error e) ↔
      ∃ m, (getFileGitHistory g fp).2 = .error m) ∧
    (g.logOut fp = .ok "" → (getFileGitHistory g fp).2 = .ok [""]) := by
  constructor
  · cases hl : g.logOut fp with
    | error e => simp [getFileGitHistory, hl]
    | ok o => simp [getFileGitHistory, hl]
  · intro h
    simp [getFileGitHistory, h]
    rfl

/-- C7 amended witness: a non-zero log exit is reported as a history
failure, and the empty-output case concretely yields the singleton list. -/
theorem history_fails_iff_log_fails_witness :
    (∃ m, (getFileGitHistory
        ⟨some "true", some "feature", fun _ => .error "boom", fun _ _ => true,
          fun _ _ => true⟩ "rollout.yaml").2 = .error m) ∧
    (getFileGitHistory wEmptyLog "rollout.yaml").2 = .ok [""] :=
  ⟨(history_fails_iff_log_fails
      ⟨some "true", some "feature", fun _ => .error "boom", fun _ _ => true,
        fun _ _ => true⟩ "rollout.yaml").1.mp ⟨"boom", rfl⟩,
    (history_fails_iff_log_fails wEmptyLog "rollout.yaml").2 rfl⟩

/-- C2: whenever index 1 is selected — typed as a line parsing to 1, or
blank when the displayed default is 1 — the handler issues no checkout and
no commit, reports the no-rollback message, leaves the remaining stdin
untouched and continues normally. -/
theorem select_one_noop (g : GitWorld) (fp out raw : String) (rest : List String)
    (hlog : g.logOut fp = .ok out)
    (hsel : (raw ≠ "" ∧ atoi raw = some 1) ∨
      (raw = "" ∧ defaultIndex (splitOnChar '\n' (trimSpace out)) = 1)) :
    (handleSingleRolloutFile g fp (raw :: rest)).trace = [] ∧
    (handleSingleRolloutFile g fp (raw :: rest)).control = .ok ∧
    noopLine fp ∈ (handleSingleRolloutFile g fp (raw :: rest)).printed ∧
    (handleSingleRolloutFile g fp (raw :: rest)).rest = rest := by
  have hnil : splitOnChar '\n' (trimSpace out) ≠ [] := by
    have hL := splitOnChar_length_pos '\n' (trimSpace out)
    intro h
    rw [h] at hL
    simp at hL
  have hstep : selectStep (splitOnChar '\n' (trimSpace out)) raw = .noop := by
    rcases hsel with ⟨hne, hat⟩ | ⟨hraw, hdef⟩
    · unfold selectStep resolveInput
      rw [if_neg hne, hat]
      simp [hnil]
    · unfold selectStep resolveInput
      rw [if_pos hraw, hdef]
      have h1 : atoi (toString (1 : Nat)) = some 1 := by decide
      rw [h1]
      simp [hnil]
  simp only [handleSingleRolloutFile, getFileGitHistory, hlog, selectLoop,
    hstep, selectDone]
  simp

/-- C2 witness: with a one-line history and blank input (default 1), and
with a two-line history and a typed "1", no git command is issued and the
no-op is reported. -/
theorem select_one_noop_witness :
    ((handleSingleRolloutFile wEmptyLog "rollout.yaml" [""]).trace = [] ∧
      (handleSingleRolloutFile wEmptyLog "rollout.yaml" [""]).control = .ok ∧
      noopLine "rollout.yaml" ∈
        (handleSingleRolloutFile wEmptyLog "rollout.yaml" [""]).printed ∧
      (handleSingleRolloutFile wEmptyLog "rollout.yaml" [""]).rest = []) := by
  exact select_one_noop wEmptyLog "rollout.yaml" "" "" [] rfl
    (Or.inr ⟨rfl, by decide⟩)

/-- The trace of rollbackToCommit always starts with the checkout command,
whatever the outcomes of the two git invocations. -/
theorem rollbackToCommit_trace_head (g : GitWorld) (fp c : String) :
    (rollbackToCommit g fp c).1.head? = some (.checkout c fp) := by
  cases hc : g.checkoutOk c fp
  · simp [rollbackToCommit, hc]
  · cases hm : g.commitOk (mkCommitMessage fp c) [fp] <;>
      simp [rollbackToCommit, hc, hm]

/-- C3: selecting any index i in [2, L] — typed as a line parsing to i, or
blank with displayed default i — makes the handler invoke git checkout
with the revision identifier taken from entry i of the history, namely the
text of that entry before its first comma. -/
theorem select_in_range_checks_out (g : GitWorld) (fp out raw : String)
    (rest : List String) (i : Nat)
    (hlog : g.logOut fp = .ok out)
    (hi2 : 2 ≤ i) (hiL : i ≤ (splitOnChar '\n' (trimSpace out)).length)
    (hsel : (raw ≠ "" ∧ atoi raw = some (i : Int)) ∨
      (raw = "" ∧ defaultIndex (splitOnChar '\n' (trimSpace out)) = i)) :
    (handleSingleRolloutFile g fp (raw :: rest)).trace.head? =
      some (.checkout (commitOf (splitOnChar '\n' (trimSpace out)) i) fp) := by
  have hstep : selectStep (splitOnChar '\n' (trimSpace out)) raw =
      .rollbackTo i := by
    have h0 : ¬ i = 0 := by omega
    have h1 : ¬ i = 1 := by omega
    rcases hsel with ⟨hne, hat⟩ | ⟨hraw, hdef⟩
    · unfold selectStep resolveInput
      rw [if_neg hne, hat]
      simp [h0, h1, hiL]
    · have h2 : i = 2 := by
        unfold defaultIndex at hdef
        split at hdef <;> omega
      subst h2
      unfold selectStep resolveInput
      rw [if_pos hraw, hdef]
      have ha : atoi (toString (2 : Nat)) = some 2 := by decide
      rw [ha]
      simp [hiL]
  simp only [handleSingleRolloutFile, getFileGitHistory, hlog, selectLoop,
    hstep, selectDone]
  cases hr : (rollbackToCommit g fp
      (commitOf (splitOnChar '\n' (trimSpace out)) i)).2 <;>
    simp [hr, rollbackToCommit_trace_head]

/-- The git world of the two-entry scenario from the specification. -/
def wTwoEntries : GitWorld :=
  ⟨some "true", some "feature",
    fun _ => .ok ("abc123, Alice, 2024-01-01 10:00:00, fix config\nabc000, Bob, 2023-12-31 09:00:00, initial"),
    fun _ _ => true, fun _ _ => true⟩

/-- C3 witness: in the spec scenario (two history entries, blank input,
default index 2) the checkout is invoked with revision "abc000". -/
theorem select_in_range_checks_out_witness :
    (handleSingleRolloutFile wTwoEntries "rollout.yaml" [""]).trace.head? =
      some (.checkout "abc000" "rollout.yaml") := by
  have h := select_in_range_checks_out wTwoEntries "rollout.yaml"
    ("abc123, Alice, 2024-01-01 10:00:00, fix config\nabc000, Bob, 2023-12-31 09:00:00, initial")
    "" [] 2 rfl (by decide) (by decide) (Or.inr ⟨rfl, by decide⟩)
  exact h.trans (by decide)

/-- C8: any non-empty prompt answers that are non-numeric, or numeric but
outside [1, L], are each answered by a reprompt: running the loop on those
answers followed by any further input prints a prompt and the retry
message per rejected answer and then behaves exactly like the loop on the
further input alone — same git trace (no checkout or commit added), same
control outcome (no exit added), same unread stdin.  Iterating over the
list captures the unbounded repetition until valid input arrives. -/
theorem invalid_input_reprompts (g : GitWorld) (fp : String)
    (history : List String) (bads rest : List String)
    (hbad : ∀ b ∈ bads, b ≠ "" ∧ (atoi b = none ∨
      ∃ v, atoi b = some v ∧ (v < 1 ∨ v > (history.length : Int)))) :
    selectLoop g fp history (bads ++ rest) =
      ⟨bads.flatMap (fun _ => [promptLine history, retryLine]) ++
          (selectLoop g fp history rest).printed,
        (selectLoop g fp history rest).trace,
        (selectLoop g fp history rest).rest,
        (selectLoop g fp history rest).control⟩ := by
  induction bads with
  | nil => simp
  | cons b bs ih =>
    have hb := hbad b (List.mem_cons_self b bs)
    have hstep : selectStep history b = .retry := by
      unfold selectStep resolveInput
      rw [if_neg hb.1]
      rcases hb.2 with hnone | ⟨v, hv, hout⟩
      · rw [hnone]
      · rw [hv]
        have : (v < 1 ∨ v > (history.length : Int)) = True := by
          simp [hout]
        simp only [this, if_true]
    have ih2 := ih (fun x hx => hbad x (List.mem_cons_of_mem b hx))
    simp only [List.cons_append, selectLoop, hstep, ih2]
    simp [ih2]

/-- C8 witness: three invalid answers ("abc" non-numeric, "0" and "99"
out of range for the two-entry history) each reprompt, then the loop
behaves exactly as with the remaining valid answer alone. -/
theorem invalid_input_reprompts_witness :
    selectLoop wTwoEntries "rollout.yaml"
        ["line1, a", "line2, b"] (["abc", "0", "99"] ++ ["1"]) =
      ⟨["abc", "0", "99"].flatMap
          (fun _ => [promptLine ["line1, a", "line2, b"], retryLine]) ++
          (selectLoop wTwoEntries "rollout.yaml"
            ["line1, a", "line2, b"] ["1"]).printed,
        (selectLoop wTwoEntries "rollout.yaml"
          ["line1, a", "line2, b"] ["1"]).trace,
        (selectLoop wTwoEntries "rollout.yaml"
          ["line1, a", "line2, b"] ["1"]).rest,
        (selectLoop wTwoEntries "rollout.yaml"
          ["line1, a", "line2, b"] ["1"]).control⟩ :=
  invalid_input_reprompts wTwoEntries "rollout.yaml"
    ["line1, a", "line2, b"] ["abc", "0", "99"] ["1"] (by decide)

/-- The directory tree of the spec scenario: three files named
"rollout.yaml" at depths 1, 2 and 3, one case-variant "Rollout.YAML", plus
a non-matching file and a directory that is itself named "rollout.yaml"
(which must not be returned, being a directory). -/
def scenarioTree : FSNode :=
  .dir "root" (.cons (.file "rollout.yaml")
    (.cons (.dir "a" (.cons (.file "rollout.yaml")
      (.cons (.dir "b" (.cons (.file "rollout.yaml") .nil)) .nil)))
    (.cons (.dir "c" (.cons (.file "Rollout.YAML") .nil))
    (.cons (.file "readme.md")
    (.cons (.dir "rollout.yaml" (.cons (.file "notes.txt") .nil)) .nil)))))

/-- C9: the path walker returns exactly the paths of the non-directory
entries whose name matches "rollout.yaml" case-insensitively, as a
subsequence of the walk order (so in traversal order); on the spec
scenario tree it returns exactly the four expected paths. -/
theorem walker_exact (d : String) (t : FSNode) :
    (∀ p, p ∈ countRolloutFiles d t ↔
      ∃ e ∈ walkEntries t d, e.isDir = false ∧
        eqFold e.name "rollout.yaml" = true ∧ e.path = p) ∧
    List.Sublist (countRolloutFiles d t) ((walkEntries t d).map WalkEntry.path) ∧
    countRolloutFiles "root" scenarioTree =
      ["root/rollout.yaml", "root/a/rollout.yaml", "root/a/b/rollout.yaml",
        "root/c/Rollout.YAML"] := by
  refine ⟨fun p => ?_, ?_, by decide⟩
  · simp only [countRolloutFiles, List.mem_map, List.mem_filter,
      Bool.and_eq_true, Bool.not_eq_true']
    constructor
    · rintro ⟨e, ⟨he, hd, hf⟩, hp⟩
      exact ⟨e, he, hd, hf, hp⟩
    · rintro ⟨e, he, hd, hf, hp⟩
      exact ⟨e, ⟨he, hd, hf⟩, hp⟩
  · exact List.Sublist.map _ (List.filter_sublist _)

/-- The world of a run on an existing regular file "config.txt" whose name
does not match "rollout.yaml" in any case variant. -/
def wConfigTxt : World := ⟨true, wEmptyLog, .file "config.txt"⟩

/-- C6 counterexample: on the existing regular file "config.txt" (name not
matching the target filename) the tool does NOT report "not applicable"
and stop — instead the else-branch of rootCmd.Run runs the directory flow,
which reports finding 0 files and performs a further step: the
confirmation prompt.  The part_000 message "The file is not named
\x27rollout.yaml\x27." is nowhere in the output. -/
theorem not_applicable_counterexample :
    (runRoot wConfigTxt "config.txt" ["no"]).printed =
      [foundLine 0, confirmLine 0, "Operation aborted by the user."] ∧
    "The file is not named \x27rollout.yaml\x27." ∉
      (runRoot wConfigTxt "config.txt" ["no"]).printed := by
  constructor
  · decide
  · decide

/-- C6 amended: for an existing regular file whose name does not match
"rollout.yaml" case-insensitively (and whose path lacks the exact
lowercase suffix), the run mutates nothing (empty checkout/commit trace)
and finishes with exit status 0 — but instead of a "not applicable"
report it enters the directory flow, reporting 0 found files and asking
for confirmation. -/
theorem not_matching_file_no_mutation (w : World) (p n : String)
    (ins : List String)
    (hex : w.pathExists = true)
    (hgit : (isGitRepo w.git).err = none)
    (hfs : w.fs = .file n)
    (hname : eqFold n "rollout.yaml" = false)
    (hsuf : hasSuffix p "rollout.yaml" = false) :
    (runRoot w p ins).trace = [] ∧
    exitCode (runRoot w p ins) = some 0 ∧
    (runRoot w p ins).printed.head? = some (foundLine 0) := by
  have hfiles : countRolloutFiles p w.fs = [] := by
    rw [hfs]
    simp [countRolloutFiles, walkEntries, hname]
  by_cases hr : toLowerStr (ins.head?.getD "") = "yes" <;>
    simp [runRoot, hex, hgit, hsuf, handleDirectoryRolloutFiles, hfiles,
      processFiles, exitCode, hr]

/-- C6 amended witness: the concrete "config.txt" run issues no git
command, exits 0 and opens with the zero-count report. -/
theorem not_matching_file_no_mutation_witness :
    (runRoot wConfigTxt "config.txt" ["no"]).trace = [] ∧
    exitCode (runRoot wConfigTxt "config.txt" ["no"]) = some 0 ∧
    (runRoot wConfigTxt "config.txt" ["no"]).printed.head? =
      some (foundLine 0) :=
  not_matching_file_no_mutation wConfigTxt "config.txt" "config.txt" ["no"]
    rfl rfl rfl (by decide) (by decide)

/-- A world whose input path is a directory that is itself named
"rollout.yaml" (its git log output is the two-entry scenario text). -/
def wDirNamedRollout : World :=
  ⟨true, wTwoEntries, .dir "rollout.yaml" (.cons (.file "deployment.txt") .nil)⟩

/-- A world whose input path is a regular file named "Rollout.YAML":
a case-insensitive but not exact-lowercase match. -/
def wUpperFile : World := ⟨true, wEmptyLog, .file "Rollout.YAML"⟩

/-- C10: after the guards pass, the choice of flow depends only on whether
the input path string ends with the exact lowercase suffix "rollout.yaml",
never on whether the path is a file or a directory (the world's filesystem
tree is arbitrary in the first two conjuncts).  Concretely: a directory
named "rollout.yaml" is handled by the single-file flow (it prints a git
history header), while the regular file "Rollout.YAML" goes through the
directory-walk flow, whose case-insensitive walker then finds it. -/
theorem dispatch_by_suffix (w : World) (p : String) (ins : List String)
    (hex : w.pathExists = true) (hgit : (isGitRepo w.git).err = none) :
    (hasSuffix p "rollout.yaml" = true →
      runRoot w p ins = handleSingleRolloutFile w.git p ins) ∧
    (hasSuffix p "rollout.yaml" = false →
      runRoot w p ins = handleDirectoryRolloutFiles w p ins) ∧
    (runRoot wDirNamedRollout "k8s/rollout.yaml" ["1"]).printed.head? =
      some "Git history for \x27k8s/rollout.yaml\x27:" ∧
    (runRoot wUpperFile "Rollout.YAML" ["no"]).printed.head? =
      some (foundLine 1) := by
  refine ⟨fun h => ?_, fun h => ?_, by decide, by decide⟩
  · simp [runRoot, hex, hgit, h]
  · simp [runRoot, hex, hgit, h]

/-- C10 witness: the dispatch equalities at the two concrete worlds — the
directory named "rollout.yaml" runs the single-file flow, the
"Rollout.YAML" file runs the directory flow. -/
theorem dispatch_by_suffix_witness :
    runRoot wDirNamedRollout "k8s/rollout.yaml" ["1"] =
      handleSingleRolloutFile wDirNamedRollout.git "k8s/rollout.yaml" ["1"] ∧
    runRoot wUpperFile "Rollout.YAML" ["no"] =
      handleDirectoryRolloutFiles wUpperFile "Rollout.YAML" ["no"] :=
  ⟨(dispatch_by_suffix wDirNamedRollout "k8s/rollout.yaml" ["1"] rfl
      (by decide)).1 (by decide),
    (dispatch_by_suffix wUpperFile "Rollout.YAML" ["no"] rfl
      (by decide)).2.1 (by decide)⟩

end GoRollback
